import Mathlib

/-!
Verification of the `syt` check-out/check-in lock tool (`syt.py`).

The remote Synapse table service is modelled as a versioned row store:
a `TableState` holds the log table's header schema, its rows (each carrying
its row id, as Synapse query results do via the ROW_ID column), a version
token (`etag`) and the id counter for inserts.  `tableQuery` with an
ORDER BY clause is modelled as a stable sort of the rows by the
`checked_out` column; an insert without an etag always succeeds and bumps
the version; a store with an etag is a conditional update that is rejected
(`Option.none`, the client raises) when the token is stale.

All functions are translated from the source of `class Syt`; the leading
underscores of the Python method names are dropped.
-/

namespace Syt

/-- Column name constant `SYT_COL_USER` from the source. -/
def SYT_COL_USER : String := "user"

/-- Column name constant `SYT_COL_ENTITY` from the source. -/
def SYT_COL_ENTITY : String := "entity"

/-- Column name constant `SYT_COL_CHECKED_OUT` from the source. -/
def SYT_COL_CHECKED_OUT : String := "checked_out"

/-- Column name constant `SYT_COL_CHECKED_IN` from the source. -/
def SYT_COL_CHECKED_IN : String := "checked_in"

/-- Column name constant `SYT_COL_MESSAGE` from the source. -/
def SYT_COL_MESSAGE : String := "message"

/-- A table cell: Python `None`, a string value (user id, entity id or
message), or an integer value (a millisecond timestamp). -/
inductive Cell where
  | none : Cell
  | str : String → Cell
  | num : Int → Cell
deriving DecidableEq

/-- A table row is the list of its cells, addressed by column index. -/
abbrev Row := List Cell

/-- `Syt._get_table_column_index`: scan `headers` with `enumerate`, return
the index of the first header with the given name; Python implicitly
returns `None` when no header matches. -/
def get_table_column_index (headers : List String) (column_name : String) : Option Nat :=
  headers.findIdx? (fun item => item == column_name)

/-- The header schema created by `Syt._ensure_access_log`: the five columns
in the order they are listed in the `cols` array of the source. -/
def table_schema_headers : List String :=
  [SYT_COL_USER, SYT_COL_ENTITY, SYT_COL_CHECKED_OUT, SYT_COL_CHECKED_IN, SYT_COL_MESSAGE]

/-- The state of the remote `syt_log` table: header schema, rows with
their row ids, current version token and the next fresh row id. -/
structure TableState where
  headers : List String
  rows : List (Nat × Row)
  etag : Nat
  nextId : Nat
deriving DecidableEq

/-- What `tableQuery` hands back: the selected rows (with row ids), the
header schema and the version token of the table at read time. -/
structure QueryResult where
  headers : List String
  rows : List (Nat × Row)
  etag : Nat
deriving DecidableEq

/-- Sort key of a row for `ORDER BY checked_out`: the numeric value of the
cell in column `ci` (timestamps are the only values stored there). -/
def rowKey (ci : Nat) (p : Nat × Row) : Int :=
  match p.2.getD ci Cell.none with
  | Cell.num n => n
  | _ => 0

/-- Ascending order on rows by the `checked_out` column. -/
abbrev ascRel (ci : Nat) (a b : Nat × Row) : Prop := rowKey ci a ≤ rowKey ci b

/-- Descending order on rows by the `checked_out` column. -/
abbrev descRel (ci : Nat) (a b : Nat × Row) : Prop := rowKey ci b ≤ rowKey ci a

instance (ci : Nat) : IsTotal (Nat × Row) (ascRel ci) := ⟨fun a b => Int.le_total _ _⟩

instance (ci : Nat) : IsTrans (Nat × Row) (ascRel ci) := ⟨fun _ _ _ => Int.le_trans⟩

instance (ci : Nat) : IsTotal (Nat × Row) (descRel ci) := ⟨fun a b => Int.le_total _ _⟩

instance (ci : Nat) : IsTrans (Nat × Row) (descRel ci) := ⟨fun _ _ _ h h2 => Int.le_trans h2 h⟩

/-- `Syt._load_syt_log(order)`: runs
`select * from {table} ORDER BY checked_out {order}` (the source passes
`order='asc'` by default and `'desc'` from `Syt.log`), modelled as a
stable sort of the store's rows by the `checked_out` column. -/
def load_syt_log (t : TableState) (order : String) : QueryResult :=
  let ci := (get_table_column_index t.headers SYT_COL_CHECKED_OUT).getD 0
  { headers := t.headers
    etag := t.etag
    rows := if order == "desc" then t.rows.insertionSort (descRel ci)
            else t.rows.insertionSort (ascRel ci) }

/-- The loop condition of `Syt._find_checked_out_row`:
`(not by_user or by_user and user_id == self._user.ownerId) and
entity_id == self._entity.id and checked_in == None`. -/
def row_matches (uid eid : String) (by_user : Bool)
    (user_col entity_col checked_in_col : Nat) (r : Row) : Bool :=
  (!by_user || (by_user && (r.getD user_col Cell.none == Cell.str uid)))
    && r.getD entity_col Cell.none == Cell.str eid
    && r.getD checked_in_col Cell.none == Cell.none

/-- The triple `[checked_out_row, log.etag, log.headers]` returned by
`Syt._find_checked_out_row`. -/
structure FindResult where
  row : Option (Nat × Row)
  etag : Nat
  headers : List String
deriving DecidableEq

/-- `Syt._find_checked_out_row(by_user)`: load the log in ascending
`checked_out` order, walk its rows and stop (`break`) at the first row
passing `row_matches`; return that row (or `None`) together with the
log's etag and headers.  The `for`/`break` loop is `List.find?`. -/
def find_checked_out_row (t : TableState) (uid eid : String) (by_user : Bool) : FindResult :=
  let log := load_syt_log t "asc"
  let user_col := (get_table_column_index log.headers SYT_COL_USER).getD 0
  let entity_col := (get_table_column_index log.headers SYT_COL_ENTITY).getD 0
  let checked_in_col := (get_table_column_index log.headers SYT_COL_CHECKED_IN).getD 0
  { row := log.rows.find? (fun p => row_matches uid eid by_user user_col entity_col checked_in_col p.2)
    etag := log.etag
    headers := log.headers }

/-- Remote-store semantics of `syn.store(Table(id, [new_row]))` with no
etag: an unconditional insert; it appends the row under a fresh row id
and bumps the table version. -/
def store_append (t : TableState) (r : Row) : TableState :=
  { headers := t.headers
    rows := t.rows ++ [(t.nextId, r)]
    etag := t.etag + 1
    nextId := t.nextId + 1 }

/-- Remote-store semantics of `syn.store(Table(id, [row], etag=etag,
headers=headers))`: a conditional update of the row with id `rid`,
accepted only when the supplied token matches the table's current
version; a stale token makes the remote reject the write
(`Option.none`; the Python client raises and `Syt` does not catch it). -/
def store_conditional_update (t : TableState) (rid : Nat) (newRow : Row) (tok : Nat) :
    Option TableState :=
  if tok = t.etag then
    Option.some
      { headers := t.headers
        rows := t.rows.map (fun p => if p.1 = rid then (rid, newRow) else p)
        etag := t.etag + 1
        nextId := t.nextId }
  else
    Option.none

/-- A UTC wall-clock instant as `datetime.datetime` carries it: whole
seconds since the epoch plus a microsecond part that `timetuple()`
discards. -/
structure UtcTime where
  sec : Int
  micro : Nat
deriving DecidableEq

/-- `calendar.timegm(date_time.timetuple())`: the epoch seconds of the
instant, with the sub-second part truncated away by `timetuple()`. -/
def timegm_timetuple (dt : UtcTime) : Int := dt.sec

/-- One program run.  `Syt._get_synapse_timestamp` declares
`date_time=datetime.datetime.utcnow()` as a default argument, so Python
evaluates `utcnow()` exactly once, when the class body executes; that
frozen instant is `class_load_utcnow`. -/
structure Run where
  class_load_utcnow : UtcTime
deriving DecidableEq

/-- `Syt._get_synapse_timestamp()` as called (always without an explicit
`date_time`): `calendar.timegm(default.timetuple()) * 1000`, where the
default is the class-load instant of the run. -/
def get_synapse_timestamp (run : Run) : Int :=
  timegm_timetuple run.class_load_utcnow * 1000

/-- Outcome printed by `Syt.checkout` after the entity loaded. -/
inductive CheckoutResult where
  | checkedOut : CheckoutResult
  | alreadyCheckedOut : CheckoutResult
deriving DecidableEq

/-- Table-store part of `Syt.checkout(entityId)` (after `_load_entity`
succeeded): resolve the open row with `by_user=False`; when none is
found, append `[[ownerId, entity.id, _get_synapse_timestamp(), None,
None]]` by an unconditional insert; otherwise report that the entity is
already checked out and write nothing. -/
def checkout (t : TableState) (uid eid : String) (run : Run) : CheckoutResult × TableState :=
  let fr := find_checked_out_row t uid eid false
  match fr.row with
  | Option.none =>
    let new_row : Row :=
      [Cell.str uid, Cell.str eid, Cell.num (get_synapse_timestamp run), Cell.none, Cell.none]
    (CheckoutResult.checkedOut, store_append t new_row)
  | Option.some _ => (CheckoutResult.alreadyCheckedOut, t)

/-- Outcome of `Syt.checkin` after the entity loaded: the not-checked-out
message, a successful conditional update, or the client exception of a
rejected conditional update propagating out of `store`. -/
inductive CheckinOutcome where
  | notCheckedOut : CheckinOutcome
  | checkedIn : CheckinOutcome
  | conflictError : CheckinOutcome
deriving DecidableEq

/-- The cell written for the `message` argument (`None` or a string). -/
def message_cell (message : Option String) : Cell :=
  match message with
  | Option.some m => Cell.str m
  | Option.none => Cell.none

/-- Table-store part of `Syt.checkin(entityId, message, force)` (after
`_load_entity` succeeded).  The read resolves against the table state
`t0`; the conditional write lands on the table state `t1`, which other
writers may have advanced in between (`t1 = t0` is the uninterfered
sequential run).  The open row is resolved with `by_user=True`
unconditionally — the `force` parameter is accepted but never read by
the method body.  When a row is found, its `checked_in` and `message`
cells are assigned and the row is stored with the etag and headers
captured at resolve time; the source has no retry and no exception
handler around the store call. -/
def checkin (t0 t1 : TableState) (uid eid : String) (message : Option String)
    (force : Bool) (run : Run) : CheckinOutcome × TableState :=
  let fr := find_checked_out_row t0 uid eid true
  match fr.row with
  | Option.none => (CheckinOutcome.notCheckedOut, t1)
  | Option.some (rid, row) =>
    let checked_in_col := (get_table_column_index fr.headers SYT_COL_CHECKED_IN).getD 0
    let message_col := (get_table_column_index fr.headers SYT_COL_MESSAGE).getD 0
    let row := row.set checked_in_col (Cell.num (get_synapse_timestamp run))
    let row := row.set message_col (message_cell message)
    match store_conditional_update t1 rid row fr.etag with
    | Option.some t2 => (CheckinOutcome.checkedIn, t2)
    | Option.none => (CheckinOutcome.conflictError, t1)

/-- One remote call against the log table. -/
inductive RemoteCall where
  | query : String → RemoteCall
  | insertRow : RemoteCall
  | condWrite : Nat → RemoteCall
deriving DecidableEq

/-- The log-table calls `Syt.checkin` issues, read off the method body:
one `tableQuery` (inside `_find_checked_out_row`), then one conditional
`store` if and only if an open row was resolved — regardless of whether
that store succeeds, since no code path repeats the cycle. -/
def checkin_remote_calls (t0 : TableState) (uid eid : String) : List RemoteCall :=
  let fr := find_checked_out_row t0 uid eid true
  match fr.row with
  | Option.none => [RemoteCall.query "asc"]
  | Option.some _ => [RemoteCall.query "asc", RemoteCall.condWrite fr.etag]

/-- Python `str.split('.')` specialised to the dot separator, on the
character list of the string: every occurrence of `'.'` separates two
(possibly empty) parts, and the empty string splits to `[""]`. -/
def splitOnDot : List Char → List (List Char)
  | [] => [[]]
  | c :: cs =>
    if c = '.' then [] :: splitOnDot cs
    else
      match splitOnDot cs with
      | [] => [[c]]
      | w :: ws => (c :: w) :: ws

/-- Python `str.replace('Entity', '')` on the character list: a single
left-to-right pass removing each non-overlapping occurrence of
`"Entity"`. -/
def stripEntityOcc : List Char → List Char
  | 'E' :: 'n' :: 't' :: 'i' :: 't' :: 'y' :: rest => stripEntityOcc rest
  | c :: rest => c :: stripEntityOcc rest
  | [] => []

/-- The `type` computed by `Syt._load_entity`:
`self._entity.entityType.split('.')[-1].replace('Entity', '')`. -/
def entity_kind (entityType : String) : String :=
  String.mk (stripEntityOcc ((splitOnDot entityType.toList).getLastD []))

/-- The fields of a Synapse entity that `Syt._load_entity` reads. -/
structure Entity where
  id : String
  name : String
  entityType : String
deriving DecidableEq

/-- The gate of `Syt._load_entity`: `if type in ['Folder', 'File']`. -/
def load_entity_ok (e : Entity) : Bool :=
  ["Folder", "File"].contains (entity_kind e.entityType)

/-- `Syt._ensure_access_log`: reuse the `syt_log` table when one exists
under the project, otherwise create it with the fixed five-column
schema.  `Option.none` models a project that has no log table yet. -/
def ensure_access_log (table : Option TableState) : TableState :=
  match table with
  | Option.some t => t
  | Option.none => { headers := table_schema_headers, rows := [], etag := 0, nextId := 0 }

/-- Result of a whole command: either the abort of `_load_entity`, which
prints `Found {type} {name} ({id})` followed by `Only Folders or Files
can be checked in/out. Aborting.` and makes the command return before
touching the log table, or the table-store outcome. -/
inductive CmdOutcome (α : Type) where
  | abortedNotLockable : String → String → CmdOutcome α
  | ok : α → CmdOutcome α
deriving DecidableEq

/-- `Syt.checkout(entityId)` end to end: `_load_entity` either aborts on a
non-lockable kind (reporting the kind and name, provisioning nothing,
leaving the remote state untouched) or provisions/loads the log table
and runs the checkout transition. -/
def checkout_cmd (table : Option TableState) (e : Entity) (uid : String) (run : Run) :
    CmdOutcome CheckoutResult × Option TableState :=
  if load_entity_ok e then
    let t := ensure_access_log table
    let r := checkout t uid e.id run
    (CmdOutcome.ok r.1, Option.some r.2)
  else
    (CmdOutcome.abortedNotLockable (entity_kind e.entityType) e.name, table)

/-- `Syt.checkin(entityId, message, force)` end to end, sequential run
(no interference between the read and the write). -/
def checkin_cmd (table : Option TableState) (e : Entity) (uid : String)
    (message : Option String) (force : Bool) (run : Run) :
    CmdOutcome CheckinOutcome × Option TableState :=
  if load_entity_ok e then
    let t := ensure_access_log table
    let r := checkin t t uid e.id message force run
    (CmdOutcome.ok r.1, Option.some r.2)
  else
    (CmdOutcome.abortedNotLockable (entity_kind e.entityType) e.name, table)

/-- One output block of `Syt.log`: the five fields printed for a row. -/
structure LogBlock where
  user : Cell
  entity : Cell
  checked_out : Cell
  checked_in : Cell
  message : Cell
deriving DecidableEq

/-- The five `print` lines emitted for one row of the log. -/
def render_block (user_col entity_col checked_out_col checked_in_col message_col : Nat)
    (r : Row) : LogBlock :=
  { user := r.getD user_col Cell.none
    entity := r.getD entity_col Cell.none
    checked_out := r.getD checked_out_col Cell.none
    checked_in := r.getD checked_in_col Cell.none
    message := r.getD message_col Cell.none }

/-- The `for row in log` loop of `Syt.log`: `continue` past a row when
`not show_all and row[entity_col] != self._entity.id`, otherwise emit
its block. -/
def log_loop (show_all : Bool) (eid : String)
    (user_col entity_col checked_out_col checked_in_col message_col : Nat) :
    List (Nat × Row) → List LogBlock
  | [] => []
  | p :: rest =>
    if !show_all && !(p.2.getD entity_col Cell.none == Cell.str eid) then
      log_loop show_all eid user_col entity_col checked_out_col checked_in_col message_col rest
    else
      render_block user_col entity_col checked_out_col checked_in_col message_col p.2 ::
        log_loop show_all eid user_col entity_col checked_out_col checked_in_col message_col rest

/-- Table-store part of `Syt.log(entityId, show_all)` (after
`_load_entity` succeeded): load the log in descending `checked_out`
order and emit a block per row passing the filter.  It issues no write. -/
def log_output (t : TableState) (eid : String) (show_all : Bool) : List LogBlock :=
  let lg := load_syt_log t "desc"
  let user_col := (get_table_column_index lg.headers SYT_COL_USER).getD 0
  let entity_col := (get_table_column_index lg.headers SYT_COL_ENTITY).getD 0
  let checked_in_col := (get_table_column_index lg.headers SYT_COL_CHECKED_IN).getD 0
  let checked_out_col := (get_table_column_index lg.headers SYT_COL_CHECKED_OUT).getD 0
  let message_col := (get_table_column_index lg.headers SYT_COL_MESSAGE).getD 0
  log_loop show_all eid user_col entity_col checked_out_col checked_in_col message_col lg.rows

/-- `Syt.log(entityId, show_all)` end to end: `_load_entity` aborts on a
non-lockable kind, otherwise the blocks are printed and the remote
state is returned as the command leaves it. -/
def log_cmd (table : Option TableState) (e : Entity) (show_all : Bool) :
    CmdOutcome (List LogBlock) × Option TableState :=
  if load_entity_ok e then
    let t := ensure_access_log table
    (CmdOutcome.ok (log_output t e.id show_all), Option.some t)
  else
    (CmdOutcome.abortedNotLockable (entity_kind e.entityType) e.name, table)

/-- Python `or` on optional strings, with Python truthiness: `None` and
the empty string are falsy, so `a or b` is `a` exactly when `a` is a
non-empty string, and `b` otherwise. -/
def pyOr (a b : Option String) : Option String :=
  match a with
  | Option.some s => if s == "" then b else Option.some s
  | Option.none => b

/-- How one credential reaches `login`: a value obtained without
prompting, or an interactive prompt (`input` for the username,
`getpass.getpass` — no echo — for the password). -/
inductive CredSource where
  | value : String → CredSource
  | prompted : CredSource
deriving DecidableEq

/-- Credential resolution in `Syt.synapse_login`:
`syn_user = os.getenv('SYNAPSE_USER') or self._username` followed by
`if syn_user == None: syn_user = input(...)` — identically for the
password with `getpass.getpass`.  `env` is the environment variable
(`Option.none` when unset), `opt` the `-u`/`-p` command-line value. -/
def resolve_credential (env opt : Option String) : CredSource :=
  match pyOr env opt with
  | Option.some s => CredSource.value s
  | Option.none => CredSource.prompted

/-- Specification-side reading of the resolver's filter: the row's entity
cell equals the target, its checked-in cell is absent, and, when the
search is restricted to the caller, its user cell equals the caller.
Column positions are those of the `syt_log` schema: user 0, entity 1,
checked-out 2, checked-in 3, message 4. -/
abbrev ClaimMatch (uid eid : String) (by_user : Bool) (r : Row) : Prop :=
  (by_user = true → r.getD 0 Cell.none = Cell.str uid) ∧
  r.getD 1 Cell.none = Cell.str eid ∧
  r.getD 3 Cell.none = Cell.none

/-- An open lock row for the entity: entity cell matches, checked-in cell
absent (any user). -/
abbrev OpenRowFor (eid : String) (r : Row) : Prop :=
  r.getD 1 Cell.none = Cell.str eid ∧ r.getD 3 Cell.none = Cell.none

/-- An open lock row for the entity held by the given user. -/
abbrev OpenRowBy (uid eid : String) (r : Row) : Prop :=
  r.getD 0 Cell.none = Cell.str uid ∧
  r.getD 1 Cell.none = Cell.str eid ∧
  r.getD 3 Cell.none = Cell.none

/-- Boolean form of `OpenRowFor`, for counting open rows. -/
def is_open_row_for (eid : String) (p : Nat × Row) : Bool :=
  p.2.getD 1 Cell.none == Cell.str eid && p.2.getD 3 Cell.none == Cell.none

/-- A log-table state as the remote store actually produces it: the
five-column `syt_log` schema, five cells per row, row ids below the
fresh-id counter, and no two rows sharing a row id. -/
abbrev WF (t : TableState) : Prop :=
  t.headers = table_schema_headers ∧
  (∀ p ∈ t.rows, (Prod.snd p).length = 5) ∧
  (∀ p ∈ t.rows, Prod.fst p < t.nextId) ∧
  (t.rows.map Prod.fst).Nodup

/-- Recognises the read calls in a remote-call trace. -/
def is_query_call : RemoteCall → Bool
  | RemoteCall.query _ => true
  | _ => false

/-- Recognises the conditional-write calls in a remote-call trace. -/
def is_write_call : RemoteCall → Bool
  | RemoteCall.condWrite _ => true
  | _ => false

/-- A concrete run whose class-body execution happened at epoch second
1700000000 plus 999999 microseconds. -/
def exampleRun : Run := { class_load_utcnow := { sec := 1700000000, micro := 999999 } }

/-- A concrete log table: one closed row for `syn1` and one open row for
`syn1` held by `u1`. -/
def exampleTable : TableState :=
  { headers := table_schema_headers
    rows := [(0, [Cell.str "u9", Cell.str "syn1", Cell.num 100000, Cell.num 150000,
                  Cell.str "old work"]),
             (1, [Cell.str "u1", Cell.str "syn1", Cell.num 200000, Cell.none, Cell.none])]
    etag := 7
    nextId := 2 }

/-- The same table after another writer advanced its version token: the
etag a reader captured from `exampleTable` is now stale. -/
def staleTable : TableState :=
  { headers := table_schema_headers
    rows := exampleTable.rows
    etag := 8
    nextId := 2 }

/-- A concrete empty log table, as `_ensure_access_log` creates it. -/
def emptyTable : TableState :=
  { headers := table_schema_headers, rows := [], etag := 0, nextId := 0 }

/-- A concrete lockable entity (a Synapse folder). -/
def exampleFolder : Entity :=
  { id := "syn1", name := "data", entityType := "org.sagebionetworks.repo.model.Folder" }

/-- A concrete non-lockable entity (a Synapse project). -/
def exampleProject : Entity :=
  { id := "syn42", name := "studies", entityType := "org.sagebionetworks.repo.model.Project" }


theorem col_user : get_table_column_index table_schema_headers SYT_COL_USER = Option.some 0 := rfl

theorem col_entity : get_table_column_index table_schema_headers SYT_COL_ENTITY = Option.some 1 := rfl

theorem col_checked_out : get_table_column_index table_schema_headers SYT_COL_CHECKED_OUT = Option.some 2 := rfl

theorem col_checked_in : get_table_column_index table_schema_headers SYT_COL_CHECKED_IN = Option.some 3 := rfl

theorem col_message : get_table_column_index table_schema_headers SYT_COL_MESSAGE = Option.some 4 := rfl

theorem load_syt_log_headers (t : TableState) (o : String) : (load_syt_log t o).headers = t.headers := rfl

theorem load_syt_log_etag (t : TableState) (o : String) : (load_syt_log t o).etag = t.etag := rfl

theorem load_syt_log_perm (t : TableState) (o : String) : (load_syt_log t o).rows.Perm t.rows := by
  unfold load_syt_log
  dsimp only
  split
  · exact List.perm_insertionSort _ _
  · exact List.perm_insertionSort _ _

theorem load_syt_log_asc_sorted (t : TableState) :
    List.Pairwise (ascRel ((get_table_column_index t.headers SYT_COL_CHECKED_OUT).getD 0))
      (load_syt_log t "asc").rows := by
  unfold load_syt_log
  dsimp only
  rw [if_neg (by decide : ¬ (("asc" == "desc") = true))]
  exact List.sorted_insertionSort _ _

theorem load_syt_log_desc_sorted (t : TableState) :
    List.Pairwise (descRel ((get_table_column_index t.headers SYT_COL_CHECKED_OUT).getD 0))
      (load_syt_log t "desc").rows := by
  unfold load_syt_log
  dsimp only
  rw [if_pos (by decide : (("desc" == "desc") = true))]
  exact List.sorted_insertionSort _ _

theorem find_min_of_sorted {α : Type} {r : α → α → Prop} {p : α → Bool} :
    ∀ {l : List α}, l.Pairwise r → ∀ {a : α}, l.find? p = Option.some a →
      ∀ b ∈ l, p b = true → a = b ∨ r a b := by
  intro l
  induction l with
  | nil => intro _ a h; cases h
  | cons x xs ih =>
    intro hp a hfind b hb hpb
    rcases List.pairwise_cons.mp hp with ⟨hx, hxs⟩
    by_cases hpx : p x = true
    · rw [List.find?_cons_of_pos _ hpx] at hfind
      cases hfind
      rcases List.mem_cons.mp hb with rfl | hb2
      · exact Or.inl rfl
      · exact Or.inr (hx b hb2)
    · rw [List.find?_cons_of_neg _ (by simpa using hpx)] at hfind
      rcases List.mem_cons.mp hb with rfl | hb2
      · exact absurd hpb hpx
      · exact ih hxs hfind b hb2 hpb

theorem row_matches_iff (uid eid : String) (bu : Bool) (r : Row) :
    row_matches uid eid bu 0 1 3 r = true ↔ ClaimMatch uid eid bu r := by
  cases bu <;> simp [row_matches, ClaimMatch, and_assoc]

theorem find_checked_out_row_eq (t : TableState) (uid eid : String) (bu : Bool)
    (hh : t.headers = table_schema_headers) :
    find_checked_out_row t uid eid bu =
      { row := (load_syt_log t "asc").rows.find? (fun p => row_matches uid eid bu 0 1 3 p.2)
        etag := t.etag
        headers := t.headers } := by
  obtain ⟨hs, rows, etag, nid⟩ := t
  dsimp only at hh
  subst hh
  rfl

theorem find_row_none_iff (t : TableState) (uid eid : String) (bu : Bool) (hwf : WF t) :
    (find_checked_out_row t uid eid bu).row = Option.none ↔
      ∀ p ∈ t.rows, ¬ ClaimMatch uid eid bu p.2 := by
  rw [find_checked_out_row_eq t uid eid bu hwf.1]
  dsimp only
  rw [List.find?_eq_none]
  constructor
  · intro h p hp hcm
    exact h p ((load_syt_log_perm t "asc").mem_iff.mpr hp) ((row_matches_iff uid eid bu p.2).mpr hcm)
  · intro h p hp hm
    exact h p ((load_syt_log_perm t "asc").mem_iff.mp hp) ((row_matches_iff uid eid bu p.2).mp hm)

theorem find_row_some (t : TableState) (uid eid : String) (bu : Bool) (q : Nat × Row) (hwf : WF t)
    (h : (find_checked_out_row t uid eid bu).row = Option.some q) :
    q ∈ t.rows ∧ ClaimMatch uid eid bu q.2 := by
  rw [find_checked_out_row_eq t uid eid bu hwf.1] at h
  dsimp only at h
  have hpq := List.find?_some h
  exact ⟨(load_syt_log_perm t "asc").mem_iff.mp (List.mem_of_find?_eq_some h),
    (row_matches_iff uid eid bu q.2).mp hpq⟩

theorem find_row_min (t : TableState) (uid eid : String) (bu : Bool) (q : Nat × Row) (hwf : WF t)
    (h : (find_checked_out_row t uid eid bu).row = Option.some q) :
    ∀ p ∈ t.rows, ClaimMatch uid eid bu p.2 → rowKey 2 q ≤ rowKey 2 p := by
  intro p hp hcm
  have hsorted := load_syt_log_asc_sorted t
  rw [hwf.1, col_checked_out, Option.getD_some] at hsorted
  rw [find_checked_out_row_eq t uid eid bu hwf.1] at h
  dsimp only at h
  have hmin := find_min_of_sorted hsorted h p ((load_syt_log_perm t "asc").mem_iff.mpr hp)
      ((row_matches_iff uid eid bu p.2).mpr hcm)
  rcases hmin with rfl | hle
  · exact le_refl _
  · exact hle

theorem WF_store_append (t : TableState) (r : Row) (hwf : WF t) (hr : r.length = 5) :
    WF (store_append t r) := by
  obtain ⟨hh, hlen, hbound, hnodup⟩ := hwf
  refine ⟨hh, ?_, ?_, ?_⟩
  · intro p hp
    rcases List.mem_append.mp hp with h1 | h2
    · exact hlen p h1
    · rw [List.mem_singleton.mp h2]; exact hr
  · intro p hp
    rcases List.mem_append.mp hp with h1 | h2
    · exact Nat.lt_succ_of_lt (hbound p h1)
    · rw [List.mem_singleton.mp h2]; exact Nat.lt_succ_self _
  · show (List.map Prod.fst (t.rows ++ [(t.nextId, r)])).Nodup
    rw [List.map_append]
    simp only [List.map_cons, List.map_nil]
    rw [List.nodup_append]
    refine ⟨hnodup, List.nodup_singleton _, ?_⟩
    intro a ha hb
    rcases List.mem_singleton.mp hb with rfl
    rcases List.mem_map.mp ha with ⟨p, hp, hpa⟩
    exact absurd (hpa ▸ hbound p hp) (lt_irrefl _)

theorem new_row_open (uid eid : String) (run : Run) :
    OpenRowFor eid
      [Cell.str uid, Cell.str eid, Cell.num (get_synapse_timestamp run), Cell.none, Cell.none] :=
  ⟨rfl, rfl⟩

theorem checkout_no_open_eq (t : TableState) (uid eid : String) (run : Run) (hwf : WF t)
    (hopen : ∀ p ∈ t.rows, ¬ OpenRowFor eid p.2) :
    checkout t uid eid run = (CheckoutResult.checkedOut,
      store_append t [Cell.str uid, Cell.str eid, Cell.num (get_synapse_timestamp run),
        Cell.none, Cell.none]) := by
  have hnone : (find_checked_out_row t uid eid false).row = Option.none := by
    rw [find_row_none_iff t uid eid false hwf]
    intro p hp hcm
    exact hopen p hp ⟨hcm.2.1, hcm.2.2⟩
  simp only [checkout, hnone]

theorem checkout_found_eq (t : TableState) (uid eid : String) (run : Run) (q : Nat × Row)
    (h : (find_checked_out_row t uid eid false).row = Option.some q) :
    checkout t uid eid run = (CheckoutResult.alreadyCheckedOut, t) := by
  simp only [checkout, h]

theorem checkin_none_eq (t0 t1 : TableState) (uid eid : String) (msg : Option String)
    (f : Bool) (run : Run) (h : (find_checked_out_row t0 uid eid true).row = Option.none) :
    checkin t0 t1 uid eid msg f run = (CheckinOutcome.notCheckedOut, t1) := by
  simp only [checkin, h]

theorem checkin_some_eq (t0 t1 : TableState) (uid eid : String) (msg : Option String) (f : Bool)
    (run : Run) (rid : Nat) (row : Row) (hh : t0.headers = table_schema_headers)
    (h : (find_checked_out_row t0 uid eid true).row = Option.some (rid, row)) :
    checkin t0 t1 uid eid msg f run =
      (match store_conditional_update t1 rid
          ((row.set 3 (Cell.num (get_synapse_timestamp run))).set 4 (message_cell msg)) t0.etag with
        | Option.some t2 => (CheckinOutcome.checkedIn, t2)
        | Option.none => (CheckinOutcome.conflictError, t1)) := by
  have hhd : (find_checked_out_row t0 uid eid true).headers = table_schema_headers := by
    rw [show (find_checked_out_row t0 uid eid true).headers = t0.headers from rfl, hh]
  have het : (find_checked_out_row t0 uid eid true).etag = t0.etag := rfl
  simp only [checkin, h, hhd, het, col_checked_in, col_message, Option.getD_some]


theorem is_open_row_for_iff (eid : String) (p : Nat × Row) :
    is_open_row_for eid p = true ↔ OpenRowFor eid p.2 := by
  simp [is_open_row_for, OpenRowFor]

/-- Claim C1: `_find_checked_out_row` scans the log loaded in ascending
checked-out order and returns the first (earliest) row matching the
entity/open/(user) filter, an explicit `None` result when no row
matches, and in every case also the log's etag and header schema. -/
theorem find_checked_out_row_spec (t : TableState) (uid eid : String) (bu : Bool) (hwf : WF t) :
    (find_checked_out_row t uid eid bu).etag = t.etag ∧
    (find_checked_out_row t uid eid bu).headers = t.headers ∧
    ((find_checked_out_row t uid eid bu).row = Option.none ↔
      ∀ p ∈ t.rows, ¬ ClaimMatch uid eid bu p.2) ∧
    ∀ q : Nat × Row, (find_checked_out_row t uid eid bu).row = Option.some q →
      q ∈ t.rows ∧ ClaimMatch uid eid bu q.2 ∧
      ∀ p ∈ t.rows, ClaimMatch uid eid bu p.2 → rowKey 2 q ≤ rowKey 2 p := by
  refine ⟨rfl, rfl, find_row_none_iff t uid eid bu hwf, ?_⟩
  intro q hq
  obtain ⟨hmem, hcm⟩ := find_row_some t uid eid bu q hwf hq
  exact ⟨hmem, hcm, find_row_min t uid eid bu q hwf hq⟩

/-- Witness for C1 on a concrete two-row table. -/
theorem find_checked_out_row_spec_witness :
    (find_checked_out_row exampleTable "u1" "syn1" true).etag = exampleTable.etag ∧
    (find_checked_out_row exampleTable "u1" "syn1" true).headers = exampleTable.headers ∧
    ((find_checked_out_row exampleTable "u1" "syn1" true).row = Option.none ↔
      ∀ p ∈ exampleTable.rows, ¬ ClaimMatch "u1" "syn1" true p.2) ∧
    ∀ q : Nat × Row, (find_checked_out_row exampleTable "u1" "syn1" true).row = Option.some q →
      q ∈ exampleTable.rows ∧ ClaimMatch "u1" "syn1" true q.2 ∧
      ∀ p ∈ exampleTable.rows, ClaimMatch "u1" "syn1" true p.2 → rowKey 2 q ≤ rowKey 2 p :=
  find_checked_out_row_spec exampleTable "u1" "syn1" true (by decide)

/-- Claim C2: with no open lock for the entity, checkout appends exactly
one open row for the caller by an unconditional insert; with an open
lock present it reports already-checked-out and writes nothing; two
consecutive checkouts (same or different user) leave exactly one open
row. -/
theorem checkout_spec (t : TableState) (uid uid2 eid : String) (run run2 : Run) (hwf : WF t) :
    ((∀ p ∈ t.rows, ¬ OpenRowFor eid p.2) →
      checkout t uid eid run = (CheckoutResult.checkedOut,
        { headers := t.headers
          rows := t.rows ++ [(t.nextId, [Cell.str uid, Cell.str eid,
            Cell.num (get_synapse_timestamp run), Cell.none, Cell.none])]
          etag := t.etag + 1
          nextId := t.nextId + 1 })) ∧
    ((∃ p ∈ t.rows, OpenRowFor eid p.2) →
      checkout t uid eid run = (CheckoutResult.alreadyCheckedOut, t)) ∧
    ((∀ p ∈ t.rows, ¬ OpenRowFor eid p.2) →
      checkout ((checkout t uid eid run).2) uid2 eid run2
          = (CheckoutResult.alreadyCheckedOut, (checkout t uid eid run).2) ∧
      ((checkout t uid eid run).2.rows.countP (is_open_row_for eid)) = 1) := by
  have already_of_open : ∀ (s : TableState) (u : String) (rn : Run), WF s →
      (∃ p ∈ s.rows, OpenRowFor eid p.2) →
      checkout s u eid rn = (CheckoutResult.alreadyCheckedOut, s) := by
    intro s u rn hwfs hex
    obtain ⟨p, hp, hop⟩ := hex
    cases hrow : (find_checked_out_row s u eid false).row with
    | none =>
      exfalso
      exact (find_row_none_iff s u eid false hwfs).mp hrow p hp
        ⟨fun hc => (Bool.false_ne_true hc).elim, hop.1, hop.2⟩
    | some q => exact checkout_found_eq s u eid rn q hrow
  refine ⟨fun hopen => checkout_no_open_eq t uid eid run hwf hopen,
    already_of_open t uid run hwf, ?_⟩
  intro hopen
  have heq := checkout_no_open_eq t uid eid run hwf hopen
  rw [heq]
  dsimp only
  have hwf1 : WF (store_append t [Cell.str uid, Cell.str eid,
      Cell.num (get_synapse_timestamp run), Cell.none, Cell.none]) :=
    WF_store_append t _ hwf rfl
  constructor
  · exact already_of_open _ uid2 run2 hwf1
      ⟨(t.nextId, [Cell.str uid, Cell.str eid, Cell.num (get_synapse_timestamp run),
          Cell.none, Cell.none]),
        List.mem_append_right _ (List.mem_singleton_self _), new_row_open uid eid run⟩
  · show ((t.rows ++ [(t.nextId, _)]).countP (is_open_row_for eid)) = 1
    rw [List.countP_append]
    have h0 : t.rows.countP (is_open_row_for eid) = 0 := by
      rw [List.countP_eq_zero]
      intro p hp
      rw [is_open_row_for_iff]
      exact hopen p hp
    rw [h0]
    rw [List.countP_cons_of_pos _ _ (by rw [is_open_row_for_iff]; exact new_row_open uid eid run)]
    rfl

/-- Witness for C2 starting from the empty table. -/
theorem checkout_spec_witness :
    ((∀ p ∈ emptyTable.rows, ¬ OpenRowFor "syn1" p.2) →
      checkout emptyTable "u1" "syn1" exampleRun = (CheckoutResult.checkedOut,
        { headers := emptyTable.headers
          rows := emptyTable.rows ++ [(emptyTable.nextId, [Cell.str "u1", Cell.str "syn1",
            Cell.num (get_synapse_timestamp exampleRun), Cell.none, Cell.none])]
          etag := emptyTable.etag + 1
          nextId := emptyTable.nextId + 1 })) ∧
    ((∃ p ∈ emptyTable.rows, OpenRowFor "syn1" p.2) →
      checkout emptyTable "u1" "syn1" exampleRun = (CheckoutResult.alreadyCheckedOut, emptyTable)) ∧
    ((∀ p ∈ emptyTable.rows, ¬ OpenRowFor "syn1" p.2) →
      checkout ((checkout emptyTable "u1" "syn1" exampleRun).2) "u2" "syn1" exampleRun
          = (CheckoutResult.alreadyCheckedOut, (checkout emptyTable "u1" "syn1" exampleRun).2) ∧
      ((checkout emptyTable "u1" "syn1" exampleRun).2.rows.countP (is_open_row_for "syn1")) = 1) :=
  checkout_spec emptyTable "u1" "u2" "syn1" exampleRun exampleRun (by decide)

/-- Claim C3: `checkin` resolves restricted to the caller for every value
of `force`; with no open lock by the caller it reports not-checked-out
and writes nothing; checkout by one user followed by checkin by a
different user leaves the first user's open lock in place. -/
theorem checkin_restricted_to_user (t0 t1 t : TableState) (uid v eid : String)
    (msg : Option String) (run : Run) (hwf0 : WF t0) (hwf : WF t) :
    (∀ f1 f2 : Bool, checkin t0 t1 uid eid msg f1 run = checkin t0 t1 uid eid msg f2 run) ∧
    ((∀ p ∈ t0.rows, ¬ OpenRowBy uid eid p.2) → ∀ f : Bool,
      checkin t0 t1 uid eid msg f run = (CheckinOutcome.notCheckedOut, t1)) ∧
    ((∀ p ∈ t.rows, ¬ OpenRowFor eid p.2) → v ≠ uid → ∀ f : Bool,
      checkin ((checkout t uid eid run).2) ((checkout t uid eid run).2) v eid msg f run
          = (CheckinOutcome.notCheckedOut, (checkout t uid eid run).2) ∧
      (t.nextId, [Cell.str uid, Cell.str eid, Cell.num (get_synapse_timestamp run),
          Cell.none, Cell.none]) ∈ (checkout t uid eid run).2.rows) := by
  refine ⟨fun f1 f2 => rfl, ?_, ?_⟩
  · intro hno f
    apply checkin_none_eq
    rw [find_row_none_iff t0 uid eid true hwf0]
    intro p hp hcm
    exact hno p hp ⟨hcm.1 rfl, hcm.2.1, hcm.2.2⟩
  · intro hopen hne f
    have heq := checkout_no_open_eq t uid eid run hwf hopen
    rw [heq]
    dsimp only
    have hwf1 : WF (store_append t [Cell.str uid, Cell.str eid,
        Cell.num (get_synapse_timestamp run), Cell.none, Cell.none]) :=
      WF_store_append t _ hwf rfl
    constructor
    · apply checkin_none_eq
      rw [find_row_none_iff _ v eid true hwf1]
      intro p hp hcm
      rcases List.mem_append.mp hp with h1 | h2
      · exact hopen p h1 ⟨hcm.2.1, hcm.2.2⟩
      · rw [List.mem_singleton.mp h2] at hcm
        have hsv : Cell.str uid = Cell.str v := hcm.1 rfl
        exact hne (Cell.str.inj hsv).symm
    · exact List.mem_append_right _ (List.mem_singleton_self _)

/-- Witness for C3 on concrete tables. -/
theorem checkin_restricted_to_user_witness :
    (∀ f1 f2 : Bool, checkin exampleTable staleTable "u1" "syn1" (Option.some "m") f1 exampleRun
        = checkin exampleTable staleTable "u1" "syn1" (Option.some "m") f2 exampleRun) ∧
    ((∀ p ∈ exampleTable.rows, ¬ OpenRowBy "u1" "syn1" p.2) → ∀ f : Bool,
      checkin exampleTable staleTable "u1" "syn1" (Option.some "m") f exampleRun
          = (CheckinOutcome.notCheckedOut, staleTable)) ∧
    ((∀ p ∈ emptyTable.rows, ¬ OpenRowFor "syn1" p.2) → "u2" ≠ "u1" → ∀ f : Bool,
      checkin ((checkout emptyTable "u1" "syn1" exampleRun).2)
          ((checkout emptyTable "u1" "syn1" exampleRun).2) "u2" "syn1" (Option.some "m") f exampleRun
          = (CheckinOutcome.notCheckedOut, (checkout emptyTable "u1" "syn1" exampleRun).2) ∧
      (emptyTable.nextId, [Cell.str "u1", Cell.str "syn1",
          Cell.num (get_synapse_timestamp exampleRun), Cell.none, Cell.none])
        ∈ (checkout emptyTable "u1" "syn1" exampleRun).2.rows) :=
  checkin_restricted_to_user exampleTable staleTable emptyTable "u1" "u2" "syn1"
    (Option.some "m") exampleRun (by decide) (by decide)


theorem updated_row_getD (row : Row) (a b : Cell) (hlen : row.length = 5) :
    ((row.set 3 a).set 4 b).getD 0 Cell.none = row.getD 0 Cell.none ∧
    ((row.set 3 a).set 4 b).getD 1 Cell.none = row.getD 1 Cell.none ∧
    ((row.set 3 a).set 4 b).getD 2 Cell.none = row.getD 2 Cell.none ∧
    ((row.set 3 a).set 4 b).getD 3 Cell.none = a ∧
    ((row.set 3 a).set 4 b).getD 4 Cell.none = b := by
  refine ⟨?_, ?_, ?_, ?_, ?_⟩ <;>
    simp [List.getD_eq_getElem?_getD, List.getElem?_set_ne, List.getElem?_set_self, hlen]

/-- Claim C4: a successful checkin performs a conditional update keyed by
the captured version token that replaces exactly the resolved row,
assigning only its checked-in and message cells; user, entity and
checked-out cells are untouched and no row is deleted. -/
theorem checkin_frame (t t2 : TableState) (uid eid : String) (msg : Option String) (f : Bool)
    (run : Run) (hwf : WF t)
    (h : checkin t t uid eid msg f run = (CheckinOutcome.checkedIn, t2)) :
    t2.headers = t.headers ∧
    t2.etag = t.etag + 1 ∧
    t2.rows.length = t.rows.length ∧
    ∃ rid row,
      (find_checked_out_row t uid eid true).row = Option.some (rid, row) ∧
      (rid, row) ∈ t.rows ∧ OpenRowBy uid eid row ∧
      (∀ p ∈ t.rows, p.1 ≠ rid → p ∈ t2.rows) ∧
      (∀ p ∈ t2.rows, p.1 ≠ rid → p ∈ t.rows) ∧
      (rid, (row.set 3 (Cell.num (get_synapse_timestamp run))).set 4 (message_cell msg))
          ∈ t2.rows ∧
      ((row.set 3 (Cell.num (get_synapse_timestamp run))).set 4 (message_cell msg)).getD 0
          Cell.none = row.getD 0 Cell.none ∧
      ((row.set 3 (Cell.num (get_synapse_timestamp run))).set 4 (message_cell msg)).getD 1
          Cell.none = row.getD 1 Cell.none ∧
      ((row.set 3 (Cell.num (get_synapse_timestamp run))).set 4 (message_cell msg)).getD 2
          Cell.none = row.getD 2 Cell.none ∧
      ((row.set 3 (Cell.num (get_synapse_timestamp run))).set 4 (message_cell msg)).getD 3
          Cell.none = Cell.num (get_synapse_timestamp run) ∧
      ((row.set 3 (Cell.num (get_synapse_timestamp run))).set 4 (message_cell msg)).getD 4
          Cell.none = message_cell msg ∧
      ((row.set 3 (Cell.num (get_synapse_timestamp run))).set 4 (message_cell msg)).length
          = row.length := by
  cases hfind : (find_checked_out_row t uid eid true).row with
  | none =>
    rw [checkin_none_eq t t uid eid msg f run hfind] at h
    simp at h
  | some q =>
    obtain ⟨rid, row⟩ := q
    rw [checkin_some_eq t t uid eid msg f run rid row hwf.1 hfind] at h
    unfold store_conditional_update at h
    rw [if_pos rfl] at h
    dsimp only at h
    have ht2 := (Prod.ext_iff.mp h).2
    dsimp only at ht2
    subst ht2
    obtain ⟨hmem, hcm⟩ := find_row_some t uid eid true (rid, row) hwf hfind
    have hlen5 : row.length = 5 := hwf.2.1 (rid, row) hmem
    obtain ⟨g0, g1, g2, g3, g4⟩ :=
      updated_row_getD row (Cell.num (get_synapse_timestamp run)) (message_cell msg) hlen5
    refine ⟨rfl, rfl, List.length_map _ _, rid, row,
      rfl, hmem, ⟨hcm.1 rfl, hcm.2.1, hcm.2.2⟩, ?_, ?_, ?_, g0, g1, g2, g3, g4,
      by simp [List.length_set]⟩
    · intro p hp hne
      exact List.mem_map.mpr ⟨p, hp, if_neg hne⟩
    · intro p hp hne
      rcases List.mem_map.mp hp with ⟨q2, hq2, hfq⟩
      by_cases hq2id : q2.1 = rid
      · rw [if_pos hq2id] at hfq
        rw [← hfq] at hne
        exact absurd rfl hne
      · rw [if_neg hq2id] at hfq
        rw [← hfq]
        exact hq2
    · exact List.mem_map.mpr ⟨(rid, row), hmem, if_pos rfl⟩

/-- Witness for C4: a concrete successful checkin on `exampleTable`. -/
theorem checkin_frame_witness :
    ({ headers := table_schema_headers
       rows := [(0, [Cell.str "u9", Cell.str "syn1", Cell.num 100000, Cell.num 150000,
                     Cell.str "old work"]),
                (1, [Cell.str "u1", Cell.str "syn1", Cell.num 200000,
                     Cell.num 1700000000000, Cell.str "done"])]
       etag := 8
       nextId := 2 } : TableState).headers = exampleTable.headers ∧
    ({ headers := table_schema_headers
       rows := [(0, [Cell.str "u9", Cell.str "syn1", Cell.num 100000, Cell.num 150000,
                     Cell.str "old work"]),
                (1, [Cell.str "u1", Cell.str "syn1", Cell.num 200000,
                     Cell.num 1700000000000, Cell.str "done"])]
       etag := 8
       nextId := 2 } : TableState).etag = exampleTable.etag + 1 ∧
    ({ headers := table_schema_headers
       rows := [(0, [Cell.str "u9", Cell.str "syn1", Cell.num 100000, Cell.num 150000,
                     Cell.str "old work"]),
                (1, [Cell.str "u1", Cell.str "syn1", Cell.num 200000,
                     Cell.num 1700000000000, Cell.str "done"])]
       etag := 8
       nextId := 2 } : TableState).rows.length = exampleTable.rows.length ∧
    ∃ rid row,
      (find_checked_out_row exampleTable "u1" "syn1" true).row = Option.some (rid, row) ∧
      (rid, row) ∈ exampleTable.rows ∧ OpenRowBy "u1" "syn1" row ∧
      (∀ p ∈ exampleTable.rows, p.1 ≠ rid →
        p ∈ ({ headers := table_schema_headers
               rows := [(0, [Cell.str "u9", Cell.str "syn1", Cell.num 100000, Cell.num 150000,
                             Cell.str "old work"]),
                        (1, [Cell.str "u1", Cell.str "syn1", Cell.num 200000,
                             Cell.num 1700000000000, Cell.str "done"])]
               etag := 8
               nextId := 2 } : TableState).rows) ∧
      (∀ p ∈ ({ headers := table_schema_headers
                rows := [(0, [Cell.str "u9", Cell.str "syn1", Cell.num 100000, Cell.num 150000,
                              Cell.str "old work"]),
                         (1, [Cell.str "u1", Cell.str "syn1", Cell.num 200000,
                              Cell.num 1700000000000, Cell.str "done"])]
                etag := 8
                nextId := 2 } : TableState).rows, p.1 ≠ rid → p ∈ exampleTable.rows) ∧
      (rid, (row.set 3 (Cell.num (get_synapse_timestamp exampleRun))).set 4
          (message_cell (Option.some "done")))
          ∈ ({ headers := table_schema_headers
               rows := [(0, [Cell.str "u9", Cell.str "syn1", Cell.num 100000, Cell.num 150000,
                             Cell.str "old work"]),
                        (1, [Cell.str "u1", Cell.str "syn1", Cell.num 200000,
                             Cell.num 1700000000000, Cell.str "done"])]
               etag := 8
               nextId := 2 } : TableState).rows ∧
      ((row.set 3 (Cell.num (get_synapse_timestamp exampleRun))).set 4
          (message_cell (Option.some "done"))).getD 0 Cell.none = row.getD 0 Cell.none ∧
      ((row.set 3 (Cell.num (get_synapse_timestamp exampleRun))).set 4
          (message_cell (Option.some "done"))).getD 1 Cell.none = row.getD 1 Cell.none ∧
      ((row.set 3 (Cell.num (get_synapse_timestamp exampleRun))).set 4
          (message_cell (Option.some "done"))).getD 2 Cell.none = row.getD 2 Cell.none ∧
      ((row.set 3 (Cell.num (get_synapse_timestamp exampleRun))).set 4
          (message_cell (Option.some "done"))).getD 3 Cell.none
          = Cell.num (get_synapse_timestamp exampleRun) ∧
      ((row.set 3 (Cell.num (get_synapse_timestamp exampleRun))).set 4
          (message_cell (Option.some "done"))).getD 4 Cell.none
          = message_cell (Option.some "done") ∧
      ((row.set 3 (Cell.num (get_synapse_timestamp exampleRun))).set 4
          (message_cell (Option.some "done"))).length = row.length :=
  checkin_frame exampleTable _ "u1" "syn1" (Option.some "done") false exampleRun
    (by decide) (by decide)


/-- Counterexample to claim C5 as stated: at a conflicting conditional
write (the table version advanced from 7 to 8 between the read and the
write) the source surfaces the store failure after exactly one read and
one conditional write — it never retries the read-resolve-write cycle. -/
theorem checkin_retry_claim_false :
    (checkin exampleTable staleTable "u1" "syn1" (Option.some "done") false exampleRun).1
        = CheckinOutcome.conflictError ∧
    checkin_remote_calls exampleTable "u1" "syn1"
        = [RemoteCall.query "asc", RemoteCall.condWrite 7] ∧
    (checkin_remote_calls exampleTable "u1" "syn1").countP is_query_call = 1 := by decide

/-- Claim C5 (amended): when the conditional check-in write is rejected
because the version token is stale, the failure propagates to the
caller with no retry — the whole command performs exactly one log query
and one conditional write — and the conflicting write mutates
nothing. -/
theorem checkin_conflict_no_retry (t0 t1 : TableState) (uid eid : String) (msg : Option String)
    (f : Bool) (run : Run) (hh : t0.headers = table_schema_headers)
    (h : (checkin t0 t1 uid eid msg f run).1 = CheckinOutcome.conflictError) :
    (checkin t0 t1 uid eid msg f run).2 = t1 ∧
    t1.etag ≠ t0.etag ∧
    (checkin_remote_calls t0 uid eid).countP is_query_call = 1 ∧
    (checkin_remote_calls t0 uid eid).countP is_write_call = 1 := by
  cases hfind : (find_checked_out_row t0 uid eid true).row with
  | none =>
    rw [checkin_none_eq t0 t1 uid eid msg f run hfind] at h
    simp at h
  | some q =>
    obtain ⟨rid, row⟩ := q
    have hck := checkin_some_eq t0 t1 uid eid msg f run rid row hh hfind
    have hcalls : checkin_remote_calls t0 uid eid
        = [RemoteCall.query "asc",
           RemoteCall.condWrite (find_checked_out_row t0 uid eid true).etag] := by
      simp only [checkin_remote_calls, hfind]
    cases hsc : store_conditional_update t1 rid
        ((row.set 3 (Cell.num (get_synapse_timestamp run))).set 4 (message_cell msg)) t0.etag with
    | some t2 =>
      rw [hck, hsc] at h
      simp at h
    | none =>
      rw [hck, hsc]
      dsimp only
      refine ⟨rfl, ?_, ?_, ?_⟩
      · intro hetag
        unfold store_conditional_update at hsc
        rw [if_pos hetag.symm] at hsc
        cases hsc
      · rw [hcalls]
        rfl
      · rw [hcalls]
        rfl

/-- Witness for the amended C5 on the concrete stale-token scenario. -/
theorem checkin_conflict_no_retry_witness :
    (checkin exampleTable staleTable "u1" "syn1" (Option.some "done") false exampleRun).2
        = staleTable ∧
    staleTable.etag ≠ exampleTable.etag ∧
    (checkin_remote_calls exampleTable "u1" "syn1").countP is_query_call = 1 ∧
    (checkin_remote_calls exampleTable "u1" "syn1").countP is_write_call = 1 :=
  checkin_conflict_no_retry exampleTable staleTable "u1" "syn1" (Option.some "done") false
    exampleRun (by decide) (by decide)

/-- Claim C6: starting with no open lock for the entity, checkout followed
immediately by checkin by the same user leaves the entity unlocked — no
row of the resulting log is an open row for the entity. -/
theorem checkout_checkin_roundtrip (t : TableState) (uid eid : String) (msg : Option String)
    (f : Bool) (run : Run) (hwf : WF t)
    (hopen : ∀ p ∈ t.rows, ¬ OpenRowFor eid p.2) :
    ∀ p ∈ (checkin ((checkout t uid eid run).2) ((checkout t uid eid run).2)
        uid eid msg f run).2.rows, ¬ OpenRowFor eid p.2 := by
  have heq := checkout_no_open_eq t uid eid run hwf hopen
  rw [heq]
  dsimp only
  have hwf1 : WF (store_append t [Cell.str uid, Cell.str eid,
      Cell.num (get_synapse_timestamp run), Cell.none, Cell.none]) :=
    WF_store_append t _ hwf rfl
  cases hfind : (find_checked_out_row (store_append t [Cell.str uid, Cell.str eid,
      Cell.num (get_synapse_timestamp run), Cell.none, Cell.none]) uid eid true).row with
  | none =>
    exfalso
    refine (find_row_none_iff _ uid eid true hwf1).mp hfind
      (t.nextId, [Cell.str uid, Cell.str eid, Cell.num (get_synapse_timestamp run),
        Cell.none, Cell.none])
      (List.mem_append_right _ (List.mem_singleton_self _)) ⟨fun _ => rfl, rfl, rfl⟩
  | some q =>
    obtain ⟨rid, row⟩ := q
    obtain ⟨hqmem, hqcm⟩ := find_row_some _ uid eid true (rid, row) hwf1 hfind
    have hqid : rid = t.nextId ∧ row = [Cell.str uid, Cell.str eid,
        Cell.num (get_synapse_timestamp run), Cell.none, Cell.none] := by
      rcases List.mem_append.mp hqmem with hL | hR
      · exact absurd ⟨hqcm.2.1, hqcm.2.2⟩ (hopen _ hL)
      · have hpair := List.mem_singleton.mp hR
        exact ⟨congrArg Prod.fst hpair, congrArg Prod.snd hpair⟩
    obtain ⟨hrid, hrow⟩ := hqid
    subst hrid
    subst hrow
    rw [checkin_some_eq _ _ uid eid msg f run _ _ hwf1.1 hfind]
    unfold store_conditional_update
    rw [if_pos rfl]
    dsimp only
    intro p hp
    rcases List.mem_map.mp hp with ⟨q2, hq2, hfq⟩
    by_cases hq2id : q2.1 = t.nextId
    · rw [if_pos hq2id] at hfq
      rw [← hfq]
      intro hof
      have h3 := hof.2
      rw [(updated_row_getD [Cell.str uid, Cell.str eid, Cell.num (get_synapse_timestamp run),
          Cell.none, Cell.none] (Cell.num (get_synapse_timestamp run)) (message_cell msg)
          rfl).2.2.2.1] at h3
      cases h3
    · rw [if_neg hq2id] at hfq
      rw [← hfq]
      rcases List.mem_append.mp hq2 with hL | hR
      · exact hopen q2 hL
      · exfalso
        apply hq2id
        rw [List.mem_singleton.mp hR]
  
/-- Witness for C6 starting from the empty table: after the round trip the
log counts zero open rows for the entity. -/
theorem checkout_checkin_roundtrip_witness :
    ((checkin ((checkout emptyTable "u1" "syn1" exampleRun).2)
        ((checkout emptyTable "u1" "syn1" exampleRun).2)
        "u1" "syn1" (Option.some "done") false exampleRun).2.rows.countP
      (is_open_row_for "syn1")) = 0 :=
  List.countP_eq_zero.mpr (fun p hp hb =>
    checkout_checkin_roundtrip emptyTable "u1" "syn1" (Option.some "done") false exampleRun
      (by decide) (by decide) p hp ((is_open_row_for_iff "syn1" p).mp hb))


/-- Claim C7: on an entity whose kind is not Folder or File, checkout and
checkin abort after reporting the kind and name, and the remote state —
including a not-yet-provisioned log table — is left exactly as it
was. -/
theorem not_lockable_no_remote_effect (table : Option TableState) (e : Entity) (uid : String)
    (msg : Option String) (f : Bool) (run : Run)
    (h : entity_kind e.entityType ≠ "Folder" ∧ entity_kind e.entityType ≠ "File") :
    checkout_cmd table e uid run
        = (CmdOutcome.abortedNotLockable (entity_kind e.entityType) e.name, table) ∧
    checkin_cmd table e uid msg f run
        = (CmdOutcome.abortedNotLockable (entity_kind e.entityType) e.name, table) := by
  have hok : load_entity_ok e = false := by
    simp [load_entity_ok, h.1, h.2]
  constructor
  · simp [checkout_cmd, hok]
  · simp [checkin_cmd, hok]

/-- Witness for C7: a project entity with no log table provisioned. -/
theorem not_lockable_no_remote_effect_witness :
    checkout_cmd Option.none exampleProject "u1" exampleRun
        = (CmdOutcome.abortedNotLockable (entity_kind exampleProject.entityType)
            exampleProject.name, Option.none) ∧
    checkin_cmd Option.none exampleProject "u1" (Option.some "m") false exampleRun
        = (CmdOutcome.abortedNotLockable (entity_kind exampleProject.entityType)
            exampleProject.name, Option.none) :=
  not_lockable_no_remote_effect Option.none exampleProject "u1" (Option.some "m") false
    exampleRun (by decide)

theorem log_loop_eq (sa : Bool) (eid : String) (u ec co ci m : Nat) (l : List (Nat × Row)) :
    log_loop sa eid u ec co ci m l
      = (l.filter (fun p => sa || (p.2.getD ec Cell.none == Cell.str eid))).map
          (fun p => render_block u ec co ci m p.2) := by
  induction l with
  | nil => rfl
  | cons p rest ih =>
    cases sa
    · by_cases hc : p.2[ec]?.getD Cell.none = Cell.str eid
      · simp [log_loop, List.filter_cons, hc, ih]
      · simp [log_loop, List.filter_cons, hc, ih]
    · simp [log_loop, List.filter_cons, ih]

theorem log_output_eq (t : TableState) (eid : String) (sa : Bool)
    (hh : t.headers = table_schema_headers) :
    log_output t eid sa = log_loop sa eid 0 1 2 3 4 (load_syt_log t "desc").rows := by
  obtain ⟨hs, rows, etag, nid⟩ := t
  dsimp only at hh
  subst hh
  rfl

/-- Claim C8: `log` renders, from the log loaded in descending
checked-out order, exactly the rows passing the show-all/entity filter,
in that order; it mutates nothing, and an empty log yields no output
blocks. -/
theorem log_spec (t : TableState) (eid : String) (sa : Bool) (hwf : WF t) :
    log_output t eid sa
        = ((load_syt_log t "desc").rows.filter
            (fun p => sa || (p.2.getD 1 Cell.none == Cell.str eid))).map
          (fun p => render_block 0 1 2 3 4 p.2) ∧
    (load_syt_log t "desc").rows.Perm t.rows ∧
    List.Pairwise (descRel 2) (load_syt_log t "desc").rows ∧
    (t.rows = [] → log_output t eid sa = []) ∧
    (∀ e : Entity, e.id = eid → load_entity_ok e = true →
      log_cmd (Option.some t) e sa = (CmdOutcome.ok (log_output t eid sa), Option.some t)) := by
  refine ⟨?_, load_syt_log_perm t "desc", ?_, ?_, ?_⟩
  · rw [log_output_eq t eid sa hwf.1, log_loop_eq]
  · have hs := load_syt_log_desc_sorted t
    rw [hwf.1, col_checked_out, Option.getD_some] at hs
    exact hs
  · intro hnil
    rw [log_output_eq t eid sa hwf.1]
    have hrows : (load_syt_log t "desc").rows = [] := by
      unfold load_syt_log
      dsimp only
      rw [hnil]
      split <;> rfl
    rw [hrows]
    rfl
  · intro e he hok
    subst he
    simp [log_cmd, hok, ensure_access_log]

/-- Witness for C8 on the concrete two-row table. -/
theorem log_spec_witness :
    log_output exampleTable "syn1" false
        = ((load_syt_log exampleTable "desc").rows.filter
            (fun p => false || (p.2.getD 1 Cell.none == Cell.str "syn1"))).map
          (fun p => render_block 0 1 2 3 4 p.2) ∧
    (load_syt_log exampleTable "desc").rows.Perm exampleTable.rows ∧
    List.Pairwise (descRel 2) (load_syt_log exampleTable "desc").rows ∧
    (exampleTable.rows = [] → log_output exampleTable "syn1" false = []) ∧
    (∀ e : Entity, e.id = "syn1" → load_entity_ok e = true →
      log_cmd (Option.some exampleTable) e false
          = (CmdOutcome.ok (log_output exampleTable "syn1" false), Option.some exampleTable)) :=
  log_spec exampleTable "syn1" false (by decide)

/-- Counterexample to claim C9 as stated: with both the environment
variable and the command-line option present, login uses the
environment value, not the option — the option does not take
precedence. -/
theorem credential_cli_precedence_false :
    resolve_credential (Option.some "env_user") (Option.some "cli_user")
        = CredSource.value "env_user" ∧
    resolve_credential (Option.some "env_user") (Option.some "cli_user")
        ≠ CredSource.value "cli_user" := by decide

/-- Claim C9 (amended): the environment variable, when set non-empty, is
used first; the `-u`/`-p` option is used only when the environment
variable is unset or empty; the interactive prompt (with `getpass`, no
echo, for the password) happens only when both are absent. -/
theorem credential_env_precedence (envv opt : Option String) :
    (∀ s : String, envv = Option.some s → s ≠ "" →
      resolve_credential envv opt = CredSource.value s) ∧
    ((envv = Option.none ∨ envv = Option.some "") →
      ∀ u : String, opt = Option.some u → resolve_credential envv opt = CredSource.value u) ∧
    ((envv = Option.none ∨ envv = Option.some "") → opt = Option.none →
      resolve_credential envv opt = CredSource.prompted) := by
  refine ⟨?_, ?_, ?_⟩
  · intro s hs hne
    subst hs
    simp [resolve_credential, pyOr, hne]
  · intro hor u hu
    subst hu
    rcases hor with h1 | h1 <;> subst h1 <;> simp [resolve_credential, pyOr]
  · intro hor hn
    subst hn
    rcases hor with h1 | h1 <;> subst h1 <;> simp [resolve_credential, pyOr]

/-- Witness for the amended C9: environment value wins over the option. -/
theorem credential_env_precedence_witness :
    resolve_credential (Option.some "service_user") (Option.some "cli_user")
        = CredSource.value "service_user" :=
  (credential_env_precedence (Option.some "service_user") (Option.some "cli_user")).1
    "service_user" rfl (by decide)

theorem find_after_checkout (t : TableState) (uid eid : String) (run : Run) (hwf : WF t)
    (hopen : ∀ p ∈ t.rows, ¬ OpenRowFor eid p.2) :
    (find_checked_out_row (store_append t [Cell.str uid, Cell.str eid,
        Cell.num (get_synapse_timestamp run), Cell.none, Cell.none]) uid eid true).row
      = Option.some (t.nextId, [Cell.str uid, Cell.str eid,
          Cell.num (get_synapse_timestamp run), Cell.none, Cell.none]) := by
  have hwf1 : WF (store_append t [Cell.str uid, Cell.str eid,
      Cell.num (get_synapse_timestamp run), Cell.none, Cell.none]) :=
    WF_store_append t _ hwf rfl
  cases hfind : (find_checked_out_row (store_append t [Cell.str uid, Cell.str eid,
      Cell.num (get_synapse_timestamp run), Cell.none, Cell.none]) uid eid true).row with
  | none =>
    exfalso
    refine (find_row_none_iff _ uid eid true hwf1).mp hfind
      (t.nextId, [Cell.str uid, Cell.str eid, Cell.num (get_synapse_timestamp run),
        Cell.none, Cell.none])
      (List.mem_append_right _ (List.mem_singleton_self _)) ⟨fun _ => rfl, rfl, rfl⟩
  | some q =>
    obtain ⟨rid, row⟩ := q
    obtain ⟨hqmem, hqcm⟩ := find_row_some _ uid eid true (rid, row) hwf1 hfind
    rcases List.mem_append.mp hqmem with hL | hR
    · exact absurd ⟨hqcm.2.1, hqcm.2.2⟩ (hopen _ hL)
    · have hpair := List.mem_singleton.mp hR
      rw [hpair]

/-- Claim C10: within one run both `_get_synapse_timestamp()` calls return
the frozen class-load instant, truncated to whole seconds and scaled to
milliseconds; hence the round-tripped row records identical checked-out
and checked-in timestamps equal to that value, not the times of the two
calls. -/
theorem timestamp_constant_in_run (run : Run) (t : TableState) (uid eid : String)
    (msg : Option String) (f : Bool) (hwf : WF t)
    (hopen : ∀ p ∈ t.rows, ¬ OpenRowFor eid p.2) :
    get_synapse_timestamp run = run.class_load_utcnow.sec * 1000 ∧
    ∃ row2, (t.nextId, row2) ∈ (checkin ((checkout t uid eid run).2)
        ((checkout t uid eid run).2) uid eid msg f run).2.rows ∧
      row2.getD 2 Cell.none = Cell.num (run.class_load_utcnow.sec * 1000) ∧
      row2.getD 3 Cell.none = Cell.num (run.class_load_utcnow.sec * 1000) := by
  have heq := checkout_no_open_eq t uid eid run hwf hopen
  rw [heq]
  dsimp only
  have hwf1 : WF (store_append t [Cell.str uid, Cell.str eid,
      Cell.num (get_synapse_timestamp run), Cell.none, Cell.none]) :=
    WF_store_append t _ hwf rfl
  have hfind := find_after_checkout t uid eid run hwf hopen
  rw [checkin_some_eq _ _ uid eid msg f run _ _ hwf1.1 hfind]
  unfold store_conditional_update
  rw [if_pos rfl]
  dsimp only
  obtain ⟨g0, g1, g2, g3, g4⟩ := updated_row_getD
    [Cell.str uid, Cell.str eid, Cell.num (get_synapse_timestamp run), Cell.none, Cell.none]
    (Cell.num (get_synapse_timestamp run)) (message_cell msg) rfl
  refine ⟨rfl, ([Cell.str uid, Cell.str eid, Cell.num (get_synapse_timestamp run), Cell.none,
      Cell.none].set 3 (Cell.num (get_synapse_timestamp run))).set 4 (message_cell msg),
    ?_, ?_, ?_⟩
  · exact List.mem_map.mpr ⟨(t.nextId, [Cell.str uid, Cell.str eid,
      Cell.num (get_synapse_timestamp run), Cell.none, Cell.none]),
      List.mem_append_right _ (List.mem_singleton_self _), if_pos rfl⟩
  · rw [g2]
    rfl
  · rw [g3]
    rfl

/-- Witness for C10 with a class-load instant carrying a nonzero
microsecond part that the recorded timestamps discard. -/
theorem timestamp_constant_in_run_witness :
    get_synapse_timestamp exampleRun = exampleRun.class_load_utcnow.sec * 1000 ∧
    ∃ row2, (emptyTable.nextId, row2) ∈ (checkin
        ((checkout emptyTable "u1" "syn1" exampleRun).2)
        ((checkout emptyTable "u1" "syn1" exampleRun).2)
        "u1" "syn1" (Option.some "done") false exampleRun).2.rows ∧
      row2.getD 2 Cell.none = Cell.num (exampleRun.class_load_utcnow.sec * 1000) ∧
      row2.getD 3 Cell.none = Cell.num (exampleRun.class_load_utcnow.sec * 1000) :=
  timestamp_constant_in_run exampleRun emptyTable "u1" "syn1" (Option.some "done") false
    (by decide) (by decide)

end Syt
